import Mathlib

/-!
Shallow embedding of the youBot arm joint-velocity controller
(src/youbot_common/youbot_description/src/arm_joint_velocity_control.cpp,
class controller::JointVelocityController).

Real-valued quantities (velocities, efforts, times, gains) are modelled as
rationals; the PID gain computation is an external collaborator and is
modelled as an abstract transfer function parameter of type PidFun,
mapping (internal state, error, dt) to (effort increment, new state),
with a designated zero state that Pid::reset establishes.
C++ std::vector index accesses that can run past the end are modelled as
Except results carrying the offending index and the vector length.
ROS_ERROR calls are modelled as an emitted list of LogEvent values.
-/

namespace YoubotArm

/-- One joint of the pr2_mechanism_model robot state, restricted to the
fields the controller reads or writes: the joint name, the measured
velocity, the accumulated commanded effort, and the calibration flag. -/
structure JointState where
  name : String
  velocity : ℚ
  commanded_effort : ℚ
  calibrated : Bool
deriving DecidableEq

instance : Inhabited JointState := ⟨⟨"", 0, 0, false⟩⟩

/-- Internal dynamic state of one control_toolbox Pid instance.
Pid::reset zeroes all of it. -/
structure PidState where
  pError : ℚ
  iError : ℚ
  dError : ℚ
deriving DecidableEq

/-- The state Pid::reset establishes. -/
def PidState.zero : PidState := ⟨0, 0, 0⟩

/-- Abstract PID transfer function: Pid::updatePid maps the internal
state, the error and the elapsed duration dt to an effort increment and
the successor internal state. The gains are baked into the function. -/
abbrev PidFun := PidState → ℚ → ℚ → ℚ × PidState

/-- One entry of a brics_actuator::JointVelocities message. -/
structure JointValue where
  joint_uri : String
  value : ℚ
  unit : String
deriving DecidableEq, Inhabited

/-- The ROS_ERROR calls the controller can emit, by call site. -/
inductive LogEvent where
  | noJointsGiven
  | malformedSpec
  | nonStringName
  | resolutionError (name : String)
  | calibrationError (name : String)
  | gainError (name : String)
  | jointNotFound (name : String)
  | incompatibleUnit (joint : String) (unit : String)
deriving DecidableEq

/-- An out-of-range std::vector access, with the offending index and the
vector's length at that moment: a read of targetVelocities in update, a
write of targetVelocities in velocityCommand, or an access to pids. -/
inductive AccessError where
  | tvRead (index length : Nat)
  | tvWrite (index length : Nat)
  | pidAccess (index : Nat)
deriving DecidableEq

/-- The mutable member state of a JointVelocityController while running:
bound joints, the target-velocity vector, the per-joint PID states and
the cycle-clock baseline lastTime. -/
structure ControllerState where
  joints : List JointState
  targetVelocities : List ℚ
  pids : List PidState
  lastTime : ℚ
deriving DecidableEq

/-- The expected angular-velocity unit string,
to_string(boost::units::si::radian_per_second); its exact spelling is an
external constant, abstracted here. -/
def radPerSecond : String := "rad/s"

/-- RobotState::getJointState: look a joint up by name in the robot
model. -/
def getJointState (robot : List JointState) (n : String) : Option JointState :=
  robot.find? (fun j => j.name == n)

/-- One element of the configured joints parameter: a string, or an
XmlRpc value of any other type. -/
inductive ConfigItem where
  | str (s : String)
  | other
deriving DecidableEq

/-- The configured joints parameter: absent, present but not an array,
or an array of items. -/
inductive JointsParam where
  | absent
  | notArray
  | array (items : List ConfigItem)
deriving DecidableEq

/-- The name-resolution loop of init (lines 83-97): walk the configured
items, push each resolved joint onto the member vector, stop at the
first non-string item or unresolvable name. Returns the success flag,
the member joints vector as left behind, and the error log. -/
def resolveLoop (robot : List JointState) :
    List ConfigItem → List JointState → Bool × List JointState × List LogEvent
  | [], acc => (true, acc, [])
  | ConfigItem.other :: _, acc => (false, acc, [LogEvent.nonStringName])
  | ConfigItem.str n :: rest, acc =>
      match getJointState robot n with
      | none => (false, acc, [LogEvent.resolutionError n])
      | some j => resolveLoop robot rest (acc ++ [j])

/-- The controller member state init leaves behind, together with its
boolean return value and the errors logged. -/
structure InitOutcome where
  ret : Bool
  joints : List JointState
  targetVelocities : List ℚ
  pids : List PidState
  logs : List LogEvent
deriving DecidableEq

/-- JointVelocityController::init (lines 64-132): read the joints
parameter, resolve every name against the robot model, check that every
resolved joint is calibrated, size targetVelocities and pids to the
joint count, and load the PID gains per joint (gain loading is external
configuration, abstracted as the predicate gainsOk). -/
def init (robot : List JointState) (param : JointsParam)
    (gainsOk : String → Bool) : InitOutcome :=
  match param with
  | JointsParam.absent => ⟨false, [], [], [], [LogEvent.noJointsGiven]⟩
  | JointsParam.notArray => ⟨false, [], [], [], [LogEvent.malformedSpec]⟩
  | JointsParam.array items =>
      match resolveLoop robot items [] with
      | (false, js, logs) => ⟨false, js, [], [], logs⟩
      | (true, js, _) =>
          match js.find? (fun j => !j.calibrated) with
          | some j => ⟨false, js, [], [], [LogEvent.calibrationError j.name]⟩
          | none =>
              let tv := List.replicate js.length (0 : ℚ)
              let ps := List.replicate js.length PidState.zero
              match js.find? (fun j => !gainsOk j.name) with
              | some j => ⟨false, js, tv, ps, [LogEvent.gainError j.name]⟩
              | none => ⟨true, js, tv, ps, []⟩

/-- JointVelocityController::starting (lines 134-142): reset every PID's
internal state and sample the current time into lastTime. -/
def starting (now : ℚ) (s : ControllerState) : ControllerState :=
  { s with pids := s.pids.map (fun _ => PidState.zero), lastTime := now }

/-- The per-joint loop of update (lines 154-157), at absolute joint index
i: read targetVelocities[i] (out of range is an access error), compute
the error as velocity minus target, feed (error, dt) to pids[i] and add
the returned increment to the joint's commanded effort. Remaining PID
states beyond the joint count are left unchanged. -/
def updateLoop (f : PidFun) (dt : ℚ) (tv : List ℚ) :
    List JointState → List PidState → Nat →
    Except AccessError (List JointState × List PidState)
  | [], ps, _ => Except.ok ([], ps)
  | _ :: _, [], i =>
      match tv[i]? with
      | none => Except.error (AccessError.tvRead i tv.length)
      | some _ => Except.error (AccessError.pidAccess i)
  | j :: js, p :: ps, i =>
      match tv[i]? with
      | none => Except.error (AccessError.tvRead i tv.length)
      | some t =>
          (updateLoop f dt tv js ps (i + 1)).map
            (fun r => ({ j with commanded_effort :=
                          j.commanded_effort + (f p (j.velocity - t) dt).1 } :: r.1,
                       (f p (j.velocity - t) dt).2 :: r.2))

/-- JointVelocityController::update (lines 144-158): compute dt as the
time since lastTime, advance lastTime to now, and run the per-joint
control loop. -/
def update (f : PidFun) (now : ℚ) (s : ControllerState) :
    Except AccessError ControllerState :=
  let dt := now - s.lastTime
  (updateLoop f dt s.targetVelocities s.joints s.pids 0).map
    (fun r => { s with joints := r.1, pids := r.2, lastTime := now })

/-- The lookup-building loop of velocityCommand (lines 170-181): for each
bound joint, the index of the first message entry whose joint_uri equals
the joint's name, if any. -/
def lookupJoints (velocities : List JointValue) (joints : List JointState) :
    List (Option Nat) :=
  joints.map (fun js => velocities.findIdx? (fun v => v.joint_uri == js.name))

/-- std::vector::resize on a vector of doubles: truncate, or pad with
value-initialized zeros. -/
def resizeList (l : List ℚ) (n : Nat) : List ℚ :=
  l.take n ++ List.replicate (n - l.length) 0

/-- The unit check of velocityCommand (lines 190-191) for the entry at
index k: an incompatible-unit error is logged when the entry's unit string
is not radPerSecond; the value is not converted or rejected. -/
def unitLog (velocities : List JointValue) (k : Nat) : List LogEvent :=
  if (velocities.getD k default).unit == radPerSecond then []
  else [LogEvent.incompatibleUnit (velocities.getD k default).joint_uri
          (velocities.getD k default).unit]

/-- The writing loop of velocityCommand (lines 187-195), walking the
lookup table with absolute joint index j: skip unmatched joints; for a
matched joint log an incompatible-unit error when the entry's unit is
not radPerSecond, then, unless targetVelocities is empty, write the
entry's value at index j (out of range is an access error). -/
def applyEntries (velocities : List JointValue) :
    List (Option Nat) → Nat → List ℚ →
    Except AccessError (List ℚ) × List LogEvent
  | [], _, tv => (Except.ok tv, [])
  | none :: rest, j, tv => applyEntries velocities rest (j + 1) tv
  | some k :: rest, j, tv =>
      if tv.isEmpty then
        ((applyEntries velocities rest (j + 1) tv).1,
         unitLog velocities k ++ (applyEntries velocities rest (j + 1) tv).2)
      else if j < tv.length then
        ((applyEntries velocities rest (j + 1)
            (tv.set j (velocities.getD k default).value)).1,
         unitLog velocities k ++
           (applyEntries velocities rest (j + 1)
             (tv.set j (velocities.getD k default).value)).2)
      else (Except.error (AccessError.tvWrite j tv.length), unitLog velocities k)

/-- JointVelocityController::velocityCommand (lines 160-196): an empty
message restarts the controller (starting); otherwise build the lookup
table, log a not-found error for every unmatched joint, resize
targetVelocities to the message entry count, and run the writing loop. -/
def velocityCommand (now : ℚ) (velocities : List JointValue)
    (s : ControllerState) :
    Except AccessError ControllerState × List LogEvent :=
  if velocities.isEmpty then (Except.ok (starting now s), [])
  else
    let lookup := lookupJoints velocities s.joints
    let notFoundLogs := (s.joints.zip lookup).filterMap
      (fun p => if p.2.isNone then some (LogEvent.jointNotFound p.1.name) else none)
    let tv0 := resizeList s.targetVelocities velocities.length
    let r := applyEntries velocities lookup 0 tv0
    (r.1.map (fun tv => { s with targetVelocities := tv }), notFoundLogs ++ r.2)

/-- A concrete PID transfer function used to instantiate the theorems:
increment is error times dt, the state records the error and accumulates
the integral. -/
def samplePid : PidFun :=
  fun p e dt => (e * dt, ⟨e, p.iError + e * dt, p.dError⟩)

/-- Fixture joint named J1, calibrated, at rest. -/
def jointJ1 : JointState := ⟨"J1", 0, 0, true⟩

/-- Fixture joint named J2, calibrated, at rest. -/
def jointJ2 : JointState := ⟨"J2", 0, 0, true⟩

/-- Fixture controller state with bound joints [J1, J2] and target
velocities [0, 0]. -/
def stateJ12 : ControllerState :=
  ⟨[jointJ1, jointJ2], [0, 0], [PidState.zero, PidState.zero], 0⟩

/-- Fixture controller state with bound joints [J1, J2] and target
velocities [5, 7]. -/
def stateJ12' : ControllerState :=
  ⟨[jointJ1, jointJ2], [5, 7], [PidState.zero, PidState.zero], 0⟩

/-- Fixture robot model containing only the joint J1. -/
def robotOnlyJ1 : List JointState := [jointJ1]

/-- Fixture state before a tick: one joint moving at velocity 5 with
accumulated effort 10, target velocity 1, zero PID state, last tick at
time 0. -/
def stateTick : ControllerState :=
  ⟨[⟨"J1", 5, 10, true⟩], [1], [PidState.zero], 0⟩

/-- Fixture state after the tick of stateTick under samplePid at time 2:
dt is 2, the error is 4, the increment 8 raises the effort to 18. -/
def stateTick' : ControllerState :=
  ⟨[⟨"J1", 5, 18, true⟩], [1], [⟨4, 8, 0⟩], 2⟩

/-- Claim C2: the code's actual behaviour at the claim's input. With bound
joints [J1, J2] and targets [0, 0], the command [(J2, 1.5, rad/s)] logs the
non-fatal not-found condition for J1, but velocityCommand first resizes the
target-velocity vector to the entry count 1 and then writes index 1: an
out-of-range vector write (undefined behaviour in the C++), not the claimed
resulting target set [0, 1.5]. -/
theorem C2_command_writes_past_end :
    velocityCommand 1 [⟨"J2", 3 / 2, radPerSecond⟩] stateJ12 =
      (Except.error (AccessError.tvWrite 1 1), [LogEvent.jointNotFound "J1"]) := by
  rfl

/-- Claim C3: counterexample to the length invariant. With bound joints
[J1, J2] and prior targets [5, 7], the command [(J1, 1, rad/s)] succeeds
(no out-of-range access), yet leaves the target-velocity set at [1]: its
length 1 differs from the bound-joint count 2, and the unmatched joint J2
loses its prior target value 7 to the truncating resize. -/
theorem C3_length_invariant_broken :
    velocityCommand 1 [⟨"J1", 1, radPerSecond⟩] stateJ12' =
      (Except.ok (⟨[jointJ1, jointJ2], [1], [PidState.zero, PidState.zero], 0⟩ :
         ControllerState),
       [LogEvent.jointNotFound "J2"]) ∧
    (1 : Nat) ≠ stateJ12'.joints.length := by
  exact ⟨rfl, by decide⟩

/-- Claim C4: velocityCommand resizes the target-velocity set to the entry
count before writing, so with bound joints [J1, J2]: the one-entry command
matching the later joint J2 writes targetVelocities[1] in a vector of
length 1 (past the end), and after the one-entry command matching J1
succeeds, the next tick's update reads targetVelocities[1] in a vector of
length 1 (past the end). -/
theorem C4_resize_causes_oob :
    (velocityCommand 1 [⟨"J2", 3 / 2, radPerSecond⟩] stateJ12).1 =
      Except.error (AccessError.tvWrite 1 1) ∧
    (velocityCommand 1 [⟨"J1", 1, radPerSecond⟩] stateJ12).1.map
        (update samplePid 2) =
      Except.ok (Except.error (AccessError.tvRead 1 1)) := by
  exact ⟨rfl, rfl⟩

/-- Claim C5: an empty command list is handled by starting: every
PidController's internal state is re-zeroed, the cycle-clock baseline is
re-sampled to the current time, and the target-velocity values, like the
joints, are left unchanged. -/
theorem C5_empty_command_resets (now : ℚ) (s : ControllerState) :
    velocityCommand now [] s = (Except.ok (starting now s), []) ∧
    (starting now s).pids = List.replicate s.pids.length PidState.zero ∧
    (starting now s).lastTime = now ∧
    (starting now s).targetVelocities = s.targetVelocities ∧
    (starting now s).joints = s.joints := by
  refine ⟨rfl, ?_, rfl, rfl, rfl⟩
  simp [starting, List.map_const']

/-- Claim C6: counterexample to the no-partial-binding part. With a robot
model containing only J1 and the configured names [J1, J2], init returns
false logging a resolution error for J2, yet the binding for J1, pushed
before the failure, remains established in the member joint vector. -/
theorem C6_bindings_persist_counterexample :
    (init robotOnlyJ1 (JointsParam.array [ConfigItem.str "J1", ConfigItem.str "J2"])
        (fun _ => true)).ret = false ∧
    (init robotOnlyJ1 (JointsParam.array [ConfigItem.str "J1", ConfigItem.str "J2"])
        (fun _ => true)).logs = [LogEvent.resolutionError "J2"] ∧
    (init robotOnlyJ1 (JointsParam.array [ConfigItem.str "J1", ConfigItem.str "J2"])
        (fun _ => true)).joints = [jointJ1] := by
  exact ⟨rfl, rfl, rfl⟩

/-- Claim C10: with the joints parameter present as an empty array, init
succeeds with no bound joints, an empty target-velocity set and an empty
PID bank, and every subsequent tick leaves the (empty) joint list — hence
every commanded effort — unchanged, only advancing the clock baseline. -/
theorem C10_empty_joint_list (robot : List JointState) (gainsOk : String → Bool) :
    init robot (JointsParam.array []) gainsOk =
      ⟨true, [], [], [], []⟩ ∧
    ∀ (f : PidFun) (now lastT : ℚ),
      update f now (⟨[], [], [], lastT⟩ : ControllerState) =
        Except.ok (⟨[], [], [], now⟩ : ControllerState) := by
  exact ⟨rfl, fun f now lastT => rfl⟩

/-- Helper: along a successful run of updateLoop started at absolute index
i0, the joint at relative position i gets its commanded effort increased by
exactly the PID increment computed from its velocity error against
targetVelocities[i0 + i] and the global dt. -/
theorem updateLoop_ok_effort (f : PidFun) (dt : ℚ) (tv : List ℚ) :
    ∀ (js : List JointState) (ps : List PidState) (i0 : Nat)
      (js' : List JointState) (ps' : List PidState),
      updateLoop f dt tv js ps i0 = Except.ok (js', ps') →
      ∀ i, i < js.length →
        (js'.getD i default).commanded_effort =
          (js.getD i default).commanded_effort +
            (f (ps.getD i PidState.zero)
               ((js.getD i default).velocity - tv.getD (i0 + i) 0) dt).1 := by
  intro js
  induction js with
  | nil =>
      intro ps i0 js' ps' h i hi
      simp at hi
  | cons j js ih =>
      intro ps i0 js' ps' h i hi
      cases ps with
      | nil =>
          rw [updateLoop] at h
          cases htv : tv[i0]? with
          | none => rw [htv] at h; cases h
          | some t => rw [htv] at h; cases h
      | cons p ps2 =>
          rw [updateLoop] at h
          cases htv : tv[i0]? with
          | none => rw [htv] at h; cases h
          | some t =>
              rw [htv] at h
              cases hrec : updateLoop f dt tv js ps2 (i0 + 1) with
              | error e => rw [hrec] at h; cases h
              | ok r =>
                  rw [hrec] at h
                  simp only [Except.map] at h
                  have hpair :
                      (({ j with commanded_effort :=
                            j.commanded_effort + (f p (j.velocity - t) dt).1 } :: r.1,
                        (f p (j.velocity - t) dt).2 :: r.2) :
                        List JointState × List PidState) = (js', ps') := by
                    cases h; rfl
                  have hjs : js' = { j with commanded_effort :=
                      j.commanded_effort + (f p (j.velocity - t) dt).1 } :: r.1 :=
                    (congrArg Prod.fst hpair).symm
                  have hps : ps' = (f p (j.velocity - t) dt).2 :: r.2 :=
                    (congrArg Prod.snd hpair).symm
                  subst hjs
                  cases i with
                  | zero =>
                      simp [List.getD_cons_zero, List.getD_eq_getElem?_getD, htv]
                  | succ i =>
                      have hlen : i < js.length := Nat.lt_of_succ_lt_succ hi
                      have := ih ps2 (i0 + 1) r.1 r.2 hrec i hlen
                      simp only [List.getD_cons_succ]
                      rw [this]
                      have harith : i0 + 1 + i = i0 + (i + 1) := by omega
                      rw [harith]

/-- Claim C1: on every successful tick of update, the clock baseline
advances to the current time, and for each bound joint index i the joint's
commanded effort is increased by (never replaced with) the PID increment
computed from the error — actual velocity minus the target velocity at
index i — and dt, the time elapsed since the previous tick. -/
theorem C1_update_tick (f : PidFun) (now : ℚ) (s s' : ControllerState) (i : Nat)
    (hu : update f now s = Except.ok s') (hi : i < s.joints.length) :
    s'.lastTime = now ∧
    (s'.joints.getD i default).commanded_effort =
      (s.joints.getD i default).commanded_effort +
        (f (s.pids.getD i PidState.zero)
           ((s.joints.getD i default).velocity - s.targetVelocities.getD i 0)
           (now - s.lastTime)).1 := by
  rw [update] at hu
  cases hrec : updateLoop f (now - s.lastTime) s.targetVelocities s.joints s.pids 0 with
  | error e => rw [hrec] at hu; cases hu
  | ok r =>
      rw [hrec] at hu
      simp only [Except.map] at hu
      have hs' : ({ s with joints := r.1, pids := r.2, lastTime := now } :
          ControllerState) = s' := by cases hu; rfl
      subst hs'
      refine ⟨rfl, ?_⟩
      have := updateLoop_ok_effort f (now - s.lastTime) s.targetVelocities
        s.joints s.pids 0 r.1 r.2 hrec i hi
      simpa using this

/-- Witness for C1 at a concrete tick: one joint at velocity 5 with effort
10 and target 1, samplePid, dt 2; the effort becomes 10 + 4 * 2 = 18. -/
theorem C1_update_tick_witness :
    stateTick'.lastTime = 2 ∧
    (stateTick'.joints.getD 0 default).commanded_effort =
      (stateTick.joints.getD 0 default).commanded_effort +
        (samplePid (stateTick.pids.getD 0 PidState.zero)
           ((stateTick.joints.getD 0 default).velocity -
             stateTick.targetVelocities.getD 0 0)
           (2 - stateTick.lastTime)).1 :=
  C1_update_tick samplePid 2 stateTick stateTick' 0
    (by simp [update, updateLoop, stateTick, stateTick', samplePid, PidState.zero,
          Except.map]; norm_num)
    (by decide)

/-- Claim C9: a non-empty command that completes leaves the joints, every
PidController's internal state and the cycle-clock baseline unchanged: the
non-empty branch of velocityCommand only replaces the target-velocity
vector. -/
theorem C9_nonempty_command_frame (now : ℚ) (cmd : List JointValue)
    (s s' : ControllerState) (logs : List LogEvent) (hne : cmd ≠ [])
    (h : velocityCommand now cmd s = (Except.ok s', logs)) :
    s'.joints = s.joints ∧ s'.pids = s.pids ∧ s'.lastTime = s.lastTime := by
  have hemp : cmd.isEmpty = false := by
    cases cmd with
    | nil => exact absurd rfl hne
    | cons a l => rfl
  rw [velocityCommand, hemp] at h
  simp only [Bool.false_eq_true, if_false] at h
  rw [Prod.mk.injEq] at h
  obtain ⟨h1, -⟩ := h
  cases happ : (applyEntries cmd (lookupJoints cmd s.joints) 0
      (resizeList s.targetVelocities cmd.length)).1 with
  | error e => rw [happ] at h1; cases h1
  | ok tv =>
      rw [happ] at h1
      simp only [Except.map] at h1
      have hs' : ({ s with targetVelocities := tv } : ControllerState) = s' := by
        cases h1; rfl
      subst hs'
      exact ⟨rfl, rfl, rfl⟩

/-- Witness for C9 at a concrete input: the command [(J1, 1, rad/s)] on the
fixture state with joints [J1, J2] completes and leaves joints, PID states
and the clock baseline as they were. -/
theorem C9_nonempty_command_frame_witness :
    (⟨[jointJ1, jointJ2], [1], [PidState.zero, PidState.zero], 0⟩ :
        ControllerState).joints = stateJ12.joints ∧
    (⟨[jointJ1, jointJ2], [1], [PidState.zero, PidState.zero], 0⟩ :
        ControllerState).pids = stateJ12.pids ∧
    (⟨[jointJ1, jointJ2], [1], [PidState.zero, PidState.zero], 0⟩ :
        ControllerState).lastTime = stateJ12.lastTime :=
  C9_nonempty_command_frame 1 [⟨"J1", 1, radPerSecond⟩] stateJ12
    ⟨[jointJ1, jointJ2], [1], [PidState.zero, PidState.zero], 0⟩
    [LogEvent.jointNotFound "J2"] (List.cons_ne_nil _ _) (by rfl)

/-- Helper: when every configured name resolves, the resolution loop
succeeds, appends to the accumulator one binding per name in input order,
and each binding is the robot-model joint found under its own name. -/
theorem resolveLoop_resolves (robot : List JointState) :
    ∀ (names : List String) (acc : List JointState),
      (∀ n ∈ names, (getJointState robot n).isSome = true) →
      ∃ js, resolveLoop robot (names.map ConfigItem.str) acc = (true, acc ++ js, []) ∧
        js.map JointState.name = names ∧
        ∀ j ∈ js, getJointState robot j.name = some j := by
  intro names
  induction names with
  | nil =>
      intro acc h
      exact ⟨[], by simp [resolveLoop], rfl, by simp⟩
  | cons n rest ih =>
      intro acc h
      obtain ⟨j, hj⟩ := Option.isSome_iff_exists.mp (h n (List.mem_cons_self n rest))
      have hjn : j.name = n := by
        have := List.find?_some hj
        simpa using this
      obtain ⟨js', hrl, hmap, hmem⟩ :=
        ih (acc ++ [j]) (fun m hm => h m (List.mem_cons_of_mem n hm))
      refine ⟨j :: js', ?_, ?_, ?_⟩
      · rw [List.map_cons]
        simp only [resolveLoop, hj, hrl]
        simp
      · simp [hmap, hjn]
      · intro x hx
        cases List.mem_cons.mp hx with
        | inl heq => subst heq; rw [hjn]; exact hj
        | inr hx' => exact hmem x hx'

/-- Claim C7: when every configured name resolves in the robot model, every
resolved joint is calibrated and the gains load for every joint, init
returns true and the joint-binding sequence lists exactly the configured
names in input order. -/
theorem C7_init_success (robot : List JointState) (names : List String)
    (gainsOk : String → Bool)
    (hres : ∀ n ∈ names, (getJointState robot n).isSome = true)
    (hcal : ∀ n ∈ names, ∀ j, getJointState robot n = some j → j.calibrated = true)
    (hg : ∀ n ∈ names, gainsOk n = true) :
    (init robot (JointsParam.array (names.map ConfigItem.str)) gainsOk).ret = true ∧
    (init robot (JointsParam.array (names.map ConfigItem.str)) gainsOk).joints.map
        JointState.name = names := by
  obtain ⟨js, hrl, hmap, hmem⟩ := resolveLoop_resolves robot names [] hres
  have hcal' : ∀ j ∈ js, j.calibrated = true := fun j hjmem =>
    hcal j.name (hmap ▸ List.mem_map_of_mem JointState.name hjmem) j (hmem j hjmem)
  have hfind1 : js.find? (fun j => !j.calibrated) = none := by
    rw [List.find?_eq_none]
    intro j hj
    simp [hcal' j hj]
  have hfind2 : js.find? (fun j => !gainsOk j.name) = none := by
    rw [List.find?_eq_none]
    intro j hj
    simp [hg j.name (hmap ▸ List.mem_map_of_mem JointState.name hj)]
  simp only [init, hrl, List.nil_append, hfind1, hfind2]
  exact ⟨trivial, hmap⟩

/-- Witness for C7: robot model [J2, J1], configured names [J1, J2]; init
succeeds and binds in configured order J1, J2, not model order. -/
theorem C7_init_success_witness :
    (init [jointJ2, jointJ1]
        (JointsParam.array (["J1", "J2"].map ConfigItem.str)) (fun _ => true)).ret =
      true ∧
    (init [jointJ2, jointJ1]
        (JointsParam.array (["J1", "J2"].map ConfigItem.str))
        (fun _ => true)).joints.map JointState.name = ["J1", "J2"] :=
  C7_init_success [jointJ2, jointJ1] ["J1", "J2"] (fun _ => true)
    (by intro n hn; fin_cases hn <;> rfl)
    (by
      intro n hn j hj
      fin_cases hn <;>
        · simp [getJointState, jointJ1, jointJ2] at hj
          subst hj
          rfl)
    (by intro n hn; rfl)

/-- Helper: when some configured name fails to resolve, the resolution loop
returns false logging a resolution error for an unresolvable name, and the
accumulator has grown by exactly the resolutions of the names preceding the
first unresolvable one. -/
theorem resolveLoop_first_failure (robot : List JointState) :
    ∀ (names : List String) (acc : List JointState),
      (∃ n ∈ names, getJointState robot n = none) →
      ∃ js nbad,
        resolveLoop robot (names.map ConfigItem.str) acc =
          (false, acc ++ js, [LogEvent.resolutionError nbad]) ∧
        getJointState robot nbad = none ∧
        js.map JointState.name =
          names.takeWhile (fun n => (getJointState robot n).isSome) := by
  intro names
  induction names with
  | nil =>
      intro acc h
      obtain ⟨n, hn, -⟩ := h
      cases hn
  | cons n rest ih =>
      intro acc h
      cases hj : getJointState robot n with
      | none =>
          refine ⟨[], n, ?_, hj, ?_⟩
          · simp [resolveLoop, hj]
          · simp [List.takeWhile_cons, hj]
      | some j =>
          have hrest : ∃ m ∈ rest, getJointState robot m = none := by
            obtain ⟨m, hm, hmn⟩ := h
            cases List.mem_cons.mp hm with
            | inl heq => subst heq; rw [hj] at hmn; cases hmn
            | inr hm' => exact ⟨m, hm', hmn⟩
          obtain ⟨js', nbad, hrl, hnb, hmap⟩ := ih (acc ++ [j]) hrest
          have hjn : j.name = n := by
            have := List.find?_some hj
            simpa using this
          refine ⟨j :: js', nbad, ?_, hnb, ?_⟩
          · rw [List.map_cons]
            simp only [resolveLoop, hj, hrl]
            simp
          · simp [List.takeWhile_cons, hj, hjn, hmap]

/-- Claim C6 as amended: with at least one unresolvable configured name,
init returns false and logs a resolution error for an unresolvable name,
but partial binding does occur: the member joint vector retains exactly the
bindings of the names preceding the first unresolvable one. -/
theorem C6_resolution_failure (robot : List JointState) (names : List String)
    (gainsOk : String → Bool)
    (hbad : ∃ n ∈ names, getJointState robot n = none) :
    (init robot (JointsParam.array (names.map ConfigItem.str)) gainsOk).ret = false ∧
    (∃ nbad, getJointState robot nbad = none ∧
      LogEvent.resolutionError nbad ∈
        (init robot (JointsParam.array (names.map ConfigItem.str)) gainsOk).logs) ∧
    (init robot (JointsParam.array (names.map ConfigItem.str)) gainsOk).joints.map
        JointState.name =
      names.takeWhile (fun n => (getJointState robot n).isSome) := by
  obtain ⟨js, nbad, hrl, hnb, hmap⟩ := resolveLoop_first_failure robot names [] hbad
  simp only [init, hrl, List.nil_append]
  exact ⟨trivial, ⟨nbad, hnb, List.mem_singleton.mpr rfl⟩, hmap⟩

/-- Witness for C6 as amended: robot model with only J1, configured names
[J1, J2]; init fails logging a resolution error, and J1 stays bound. -/
theorem C6_resolution_failure_witness :
    (init robotOnlyJ1 (JointsParam.array (["J1", "J2"].map ConfigItem.str))
        (fun _ => true)).ret = false ∧
    (∃ nbad, getJointState robotOnlyJ1 nbad = none ∧
      LogEvent.resolutionError nbad ∈
        (init robotOnlyJ1 (JointsParam.array (["J1", "J2"].map ConfigItem.str))
            (fun _ => true)).logs) ∧
    (init robotOnlyJ1 (JointsParam.array (["J1", "J2"].map ConfigItem.str))
        (fun _ => true)).joints.map JointState.name =
      ["J1", "J2"].takeWhile (fun n => (getJointState robotOnlyJ1 n).isSome) :=
  C6_resolution_failure robotOnlyJ1 ["J1", "J2"] (fun _ => true)
    ⟨"J2", by simp, by rfl⟩

/-- Unfolding rule: the writing loop skips an unmatched joint. -/
theorem applyEntries_cons_none (v : List JointValue) (rest : List (Option Nat))
    (j0 : Nat) (tv : List ℚ) :
    applyEntries v (none :: rest) j0 tv = applyEntries v rest (j0 + 1) tv := by
  simp only [applyEntries]

/-- Unfolding rule: a matched joint while the vector is empty: the write is
skipped silently, the unit log is still collected. -/
theorem applyEntries_cons_some_empty (v : List JointValue) (rest : List (Option Nat))
    (k j0 : Nat) (tv : List ℚ) (hemp : tv.isEmpty = true) :
    applyEntries v (some k :: rest) j0 tv =
      ((applyEntries v rest (j0 + 1) tv).1,
       unitLog v k ++ (applyEntries v rest (j0 + 1) tv).2) := by
  simp only [applyEntries]
  rw [if_pos hemp]

/-- Unfolding rule: a matched joint with the vector non-empty and the index
in range: the entry value is written, the unit log collected. -/
theorem applyEntries_cons_some_write (v : List JointValue) (rest : List (Option Nat))
    (k j0 : Nat) (tv : List ℚ) (hemp : tv.isEmpty = false) (hlt : j0 < tv.length) :
    applyEntries v (some k :: rest) j0 tv =
      ((applyEntries v rest (j0 + 1) (tv.set j0 (v.getD k default).value)).1,
       unitLog v k ++
         (applyEntries v rest (j0 + 1) (tv.set j0 (v.getD k default).value)).2) := by
  simp only [applyEntries]
  rw [if_neg (by simp [hemp]), if_pos hlt]

/-- Unfolding rule: a matched joint with the index out of range: the loop
stops with a write access error after collecting the unit log. -/
theorem applyEntries_cons_some_oob (v : List JointValue) (rest : List (Option Nat))
    (k j0 : Nat) (tv : List ℚ) (hemp : tv.isEmpty = false) (hge : ¬ j0 < tv.length) :
    applyEntries v (some k :: rest) j0 tv =
      (Except.error (AccessError.tvWrite j0 tv.length), unitLog v k) := by
  simp only [applyEntries]
  rw [if_neg (by simp [hemp]), if_neg hge]

/-- Helper: a successful run of the writing loop preserves the length of
the target-velocity vector. -/
theorem applyEntries_ok_length (v : List JointValue) :
    ∀ (lks : List (Option Nat)) (j0 : Nat) (tv tv' : List ℚ),
      (applyEntries v lks j0 tv).1 = Except.ok tv' → tv'.length = tv.length := by
  intro lks
  induction lks with
  | nil =>
      intro j0 tv tv' h
      simp only [applyEntries] at h
      cases h
      rfl
  | cons lk rest ih =>
      intro j0 tv tv' h
      cases lk with
      | none =>
          rw [applyEntries_cons_none] at h
          exact ih (j0 + 1) tv tv' h
      | some k =>
          cases hemp : tv.isEmpty with
          | true =>
              rw [applyEntries_cons_some_empty v rest k j0 tv hemp] at h
              exact ih (j0 + 1) tv tv' h
          | false =>
              by_cases hlt : j0 < tv.length
              · rw [applyEntries_cons_some_write v rest k j0 tv hemp hlt] at h
                have := ih (j0 + 1) (tv.set j0 (v.getD k default).value) tv' h
                rw [this, List.length_set]
              · rw [applyEntries_cons_some_oob v rest k j0 tv hemp hlt] at h
                exact Except.noConfusion h

/-- Helper: a successful run of the writing loop started at index j0 never
touches positions below j0. -/
theorem applyEntries_ok_frame (v : List JointValue) :
    ∀ (lks : List (Option Nat)) (j0 : Nat) (tv tv' : List ℚ),
      (applyEntries v lks j0 tv).1 = Except.ok tv' →
      ∀ p, p < j0 → tv'[p]? = tv[p]? := by
  intro lks
  induction lks with
  | nil =>
      intro j0 tv tv' h p hp
      simp only [applyEntries] at h
      cases h
      rfl
  | cons lk rest ih =>
      intro j0 tv tv' h p hp
      cases lk with
      | none =>
          rw [applyEntries_cons_none] at h
          exact ih (j0 + 1) tv tv' h p (Nat.lt_succ_of_lt hp)
      | some k =>
          cases hemp : tv.isEmpty with
          | true =>
              rw [applyEntries_cons_some_empty v rest k j0 tv hemp] at h
              exact ih (j0 + 1) tv tv' h p (Nat.lt_succ_of_lt hp)
          | false =>
              by_cases hlt : j0 < tv.length
              · rw [applyEntries_cons_some_write v rest k j0 tv hemp hlt] at h
                have := ih (j0 + 1) (tv.set j0 (v.getD k default).value) tv' h p
                  (Nat.lt_succ_of_lt hp)
                rw [this, List.getElem?_set_ne (Ne.symm (Nat.ne_of_lt hp))]
              · rw [applyEntries_cons_some_oob v rest k j0 tv hemp hlt] at h
                exact Except.noConfusion h

/-- Helper: along a successful run of the writing loop on a non-empty
vector, the joint at relative position i whose lookup matched entry k ends
up with that entry's numeric value at absolute position j0 + i. -/
theorem applyEntries_ok_write (v : List JointValue) :
    ∀ (lks : List (Option Nat)) (i j0 : Nat) (tv tv' : List ℚ) (k : Nat),
      (applyEntries v lks j0 tv).1 = Except.ok tv' →
      lks[i]? = some (some k) → tv ≠ [] →
      tv'[j0 + i]? = some (v.getD k default).value := by
  intro lks
  induction lks with
  | nil =>
      intro i j0 tv tv' k h hlk hne
      simp at hlk
  | cons lk rest ih =>
      intro i j0 tv tv' k h hlk hne
      have hempf : tv.isEmpty = false := by
        cases tv with
        | nil => exact absurd rfl hne
        | cons a l => rfl
      cases lk with
      | none =>
          cases i with
          | zero => simp at hlk
          | succ i =>
              rw [List.getElem?_cons_succ] at hlk
              rw [applyEntries_cons_none] at h
              have := ih i (j0 + 1) tv tv' k h hlk hne
              rw [show j0 + (i + 1) = j0 + 1 + i from by omega]
              exact this
      | some k0 =>
          by_cases hlt : j0 < tv.length
          · rw [applyEntries_cons_some_write v rest k0 j0 tv hempf hlt] at h
            have h2 : (applyEntries v rest (j0 + 1)
                (tv.set j0 (v.getD k0 default).value)).1 = Except.ok tv' := h
            cases i with
            | zero =>
                have hk : k0 = k := by
                  rw [List.getElem?_cons_zero] at hlk
                  exact Option.some.inj (Option.some.inj hlk)
                subst hk
                have hfr := applyEntries_ok_frame v rest (j0 + 1)
                  (tv.set j0 (v.getD k0 default).value) tv' h2 j0 (Nat.lt_succ_self j0)
                rw [Nat.add_zero, hfr, List.getElem?_set_self hlt]
            | succ i =>
                rw [List.getElem?_cons_succ] at hlk
                have hne2 : tv.set j0 (v.getD k0 default).value ≠ [] := by
                  intro hc
                  have hlen := congrArg List.length hc
                  rw [List.length_set, List.length_nil] at hlen
                  exact hne (List.length_eq_zero.mp hlen)
                have := ih i (j0 + 1) (tv.set j0 (v.getD k0 default).value) tv' k
                  h2 hlk hne2
                rw [show j0 + (i + 1) = j0 + 1 + i from by omega]
                exact this
          · rw [applyEntries_cons_some_oob v rest k0 j0 tv hempf hlt] at h
            exact Except.noConfusion h

/-- Helper: along a successful run of the writing loop, a matched entry
whose unit string differs from radPerSecond contributes an
incompatible-unit log event. -/
theorem applyEntries_ok_unit_log (v : List JointValue) :
    ∀ (lks : List (Option Nat)) (i j0 : Nat) (tv tv' : List ℚ) (k : Nat),
      (applyEntries v lks j0 tv).1 = Except.ok tv' →
      lks[i]? = some (some k) →
      (v.getD k default).unit ≠ radPerSecond →
      LogEvent.incompatibleUnit (v.getD k default).joint_uri (v.getD k default).unit ∈
        (applyEntries v lks j0 tv).2 := by
  intro lks
  induction lks with
  | nil =>
      intro i j0 tv tv' k h hlk hu
      simp at hlk
  | cons lk rest ih =>
      intro i j0 tv tv' k h hlk hu
      cases lk with
      | none =>
          cases i with
          | zero => simp at hlk
          | succ i =>
              rw [List.getElem?_cons_succ] at hlk
              rw [applyEntries_cons_none] at h ⊢
              exact ih i (j0 + 1) tv tv' k h hlk hu
      | some k0 =>
          cases hemp : tv.isEmpty with
          | true =>
              rw [applyEntries_cons_some_empty v rest k0 j0 tv hemp] at h ⊢
              have h2 : (applyEntries v rest (j0 + 1) tv).1 = Except.ok tv' := h
              show _ ∈ unitLog v k0 ++ (applyEntries v rest (j0 + 1) tv).2
              cases i with
              | zero =>
                  have hk : k0 = k := by
                    rw [List.getElem?_cons_zero] at hlk
                    exact Option.some.inj (Option.some.inj hlk)
                  subst hk
                  rw [unitLog, if_neg (by simpa using hu)]
                  exact List.mem_append_left _ (List.mem_singleton.mpr rfl)
              | succ i =>
                  rw [List.getElem?_cons_succ] at hlk
                  exact List.mem_append_right _ (ih i (j0 + 1) tv tv' k h2 hlk hu)
          | false =>
              by_cases hlt : j0 < tv.length
              · rw [applyEntries_cons_some_write v rest k0 j0 tv hemp hlt] at h ⊢
                have h2 : (applyEntries v rest (j0 + 1)
                    (tv.set j0 (v.getD k0 default).value)).1 = Except.ok tv' := h
                show _ ∈ unitLog v k0 ++ (applyEntries v rest (j0 + 1)
                    (tv.set j0 (v.getD k0 default).value)).2
                cases i with
                | zero =>
                    have hk : k0 = k := by
                      rw [List.getElem?_cons_zero] at hlk
                      exact Option.some.inj (Option.some.inj hlk)
                    subst hk
                    rw [unitLog, if_neg (by simpa using hu)]
                    exact List.mem_append_left _ (List.mem_singleton.mpr rfl)
                | succ i =>
                    rw [List.getElem?_cons_succ] at hlk
                    exact List.mem_append_right _
                      (ih i (j0 + 1) (tv.set j0 (v.getD k0 default).value) tv' k
                        h2 hlk hu)
              · rw [applyEntries_cons_some_oob v rest k0 j0 tv hemp hlt] at h
                exact Except.noConfusion h

/-- Helper: resize always produces exactly the requested length. -/
theorem resizeList_length (l : List ℚ) (n : Nat) : (resizeList l n).length = n := by
  simp [resizeList]
  omega

/-- Claim C8: a command entry matched to a bound joint whose unit string
differs from the radians-per-second unit string still has its numeric
value written, unconverted, into that joint\x27s target-velocity slot, and an
incompatible-unit condition is logged; the command as a whole still
completes. -/
theorem C8_wrong_unit_still_written (now : ℚ) (cmd : List JointValue)
    (s s' : ControllerState) (logs : List LogEvent) (j k : Nat)
    (h : velocityCommand now cmd s = (Except.ok s', logs))
    (hlk : (lookupJoints cmd s.joints)[j]? = some (some k))
    (hu : (cmd.getD k default).unit ≠ radPerSecond) :
    s'.targetVelocities[j]? = some (cmd.getD k default).value ∧
    LogEvent.incompatibleUnit (cmd.getD k default).joint_uri
      (cmd.getD k default).unit ∈ logs := by
  have hcmdne : cmd ≠ [] := by
    intro hc
    subst hc
    have hmem := List.getElem?_mem hlk
    simp [lookupJoints] at hmem
  have hemp : cmd.isEmpty = false := by
    cases cmd with
    | nil => exact absurd rfl hcmdne
    | cons a l => rfl
  rw [velocityCommand, hemp] at h
  simp only [Bool.false_eq_true, if_false] at h
  rw [Prod.mk.injEq] at h
  obtain ⟨h1, h2⟩ := h
  have htv0ne : resizeList s.targetVelocities cmd.length ≠ [] := by
    intro hc
    have hlen := congrArg List.length hc
    rw [resizeList_length, List.length_nil] at hlen
    exact hcmdne (List.length_eq_zero.mp hlen)
  cases happ : (applyEntries cmd (lookupJoints cmd s.joints) 0
      (resizeList s.targetVelocities cmd.length)).1 with
  | error e => rw [happ] at h1; cases h1
  | ok tv' =>
      rw [happ] at h1
      simp only [Except.map] at h1
      have hs' : ({ s with targetVelocities := tv' } : ControllerState) = s' := by
        cases h1; rfl
      subst hs'
      constructor
      · have h0j := applyEntries_ok_write cmd (lookupJoints cmd s.joints) j 0
          (resizeList s.targetVelocities cmd.length) tv' k happ hlk htv0ne
        rw [Nat.zero_add] at h0j
        exact h0j
      · rw [← h2]
        apply List.mem_append_right
        exact applyEntries_ok_unit_log cmd (lookupJoints cmd s.joints) j 0
          (resizeList s.targetVelocities cmd.length) tv' k happ hlk hu

/-- Witness for C8 at a concrete input: the command [(J1, 2, deg/s)] on
the fixture state with joints [J1, J2] writes 2 into slot 0 unconverted
and logs the incompatible-unit condition. -/
theorem C8_wrong_unit_still_written_witness :
    (⟨[jointJ1, jointJ2], [2], [PidState.zero, PidState.zero], 0⟩ :
        ControllerState).targetVelocities[0]? =
      some (([⟨"J1", 2, "deg/s"⟩] : List JointValue).getD 0 default).value ∧
    LogEvent.incompatibleUnit
        (([⟨"J1", 2, "deg/s"⟩] : List JointValue).getD 0 default).joint_uri
        (([⟨"J1", 2, "deg/s"⟩] : List JointValue).getD 0 default).unit ∈
      [LogEvent.jointNotFound "J2", LogEvent.incompatibleUnit "J1" "deg/s"] :=
  C8_wrong_unit_still_written 1 [⟨"J1", 2, "deg/s"⟩] stateJ12
    ⟨[jointJ1, jointJ2], [2], [PidState.zero, PidState.zero], 0⟩
    [LogEvent.jointNotFound "J2", LogEvent.incompatibleUnit "J1" "deg/s"]
    0 0 (by rfl) (by rfl) (by decide)

end YoubotArm
